import Mathlib

/-!
Verification of `taskweaver/role/translator.py` (class `PostTranslator`).

The development shallowly embeds the translator:

* `JsonValue` models Python JSON values (the output of `json.loads`, and the
  structured value `structured_llm` that `post_to_raw_text` builds before
  `json.dumps`).
* `JEvent` models the `(prefix, event, value)` triples produced by the external
  incremental tokenizer `ijson.parse`; `jsonEvents` gives the event stream for a
  well-formed document, and `ijsonTokenize` gives it directly from text,
  including the events delivered before a tokenizing error on malformed or
  truncated input.
* `parseEventsAux` / `parse_llm_output_stream` embed the event-folding loop of
  `PostTranslator.parse_llm_output_stream`.
* `Post`, `Attachment`, `routeField`, `postLoop`, `raw_text_to_post` embed the
  orchestrator `PostTranslator.raw_text_to_post`; the side-effecting
  `event_handler` callback is modelled by returning the list of calls made to it.
* `post_to_raw_text_structured` embeds the serializer `PostTranslator.post_to_raw_text`
  up to (and not including) the final `json.dumps`.
* `parse_llm_output` embeds `PostTranslator.parse_llm_output`, with Python
  exceptions modelled by `Except`.
-/

namespace Translator

/-- Model of a Python JSON value, as produced by `json.loads` and as built by
`post_to_raw_text` before `json.dumps`.  Objects keep their key/value pairs in
insertion order. -/
inductive JsonValue where
  | null
  | bool (b : Bool)
  | num (n : Int)
  | str (s : String)
  | arr (items : List JsonValue)
  | obj (entries : List (String × JsonValue))

/-- Modelled from the spec: one `(prefix, event, value)` triple reported by the
external incremental tokenizer `ijson.parse` (the spec's "incremental tokenizer
that reports `(path, eventKind, value)` triples").  The `path` is the dotted
JSON key-path, with array elements contributing the component `item`. -/
inductive JEvent where
  | start_map (path : String)
  | map_key (path : String) (key : String)
  | end_map (path : String)
  | start_array (path : String)
  | end_array (path : String)
  | string (path : String) (s : String)
  | jnull (path : String)
  | boolean (path : String) (b : Bool)
  | number (path : String) (n : Int)
deriving DecidableEq, Repr

/-- Path of a child (object key or the array component `item`) below `p`. -/
def childPath (p k : String) : String :=
  if p = "" then k else p ++ "." ++ k

mutual

/-- Modelled from the spec: the event stream `ijson.parse` reports for a
well-formed JSON document, here computed from the structured value.  `p` is the
path of the value. -/
def jsonEvents : String → JsonValue → List JEvent
  | p, .null => [.jnull p]
  | p, .bool b => [.boolean p b]
  | p, .num n => [.number p n]
  | p, .str s => [.string p s]
  | p, .arr items => .start_array p :: (jsonEventsArr (childPath p "item") items ++ [.end_array p])
  | p, .obj entries => .start_map p :: (jsonEventsObj p entries ++ [.end_map p])

/-- Event streams of the items of an array, `p` being the items' path. -/
def jsonEventsArr : String → List JsonValue → List JEvent
  | _, [] => []
  | p, v :: vs => jsonEvents p v ++ jsonEventsArr p vs

/-- Event streams of the members of an object, `p` being the object's path. -/
def jsonEventsObj : String → List (String × JsonValue) → List JEvent
  | _, [] => []
  | p, (k, v) :: kvs => .map_key p k :: (jsonEvents (childPath p k) v ++ jsonEventsObj p kvs)

end

/-- The accumulator `element` of `parse_llm_output_stream`: a Python dict with
at most the keys `"type"` and `"content"`.  For each slot, `none` means the key
is absent, `some none` means the key is present with value `None` (pending),
and `some (some s)` means the key holds the string `s`. -/
structure StreamElement where
  typeSlot : Option (Option String)
  contentSlot : Option (Option String)
deriving DecidableEq, Repr

/-- The empty accumulator `element = {}`. -/
def StreamElement.empty : StreamElement := ⟨none, none⟩

/-- One step of the `if`/`elif` chain in the body of the event loop of
`parse_llm_output_stream`. -/
def applyEvent (el : StreamElement) : JEvent → StreamElement
  | .map_key path key =>
      if path = "response.item" ∧ key = "type" then { el with typeSlot := some none }
      else if path = "response.item" ∧ key = "content" then { el with contentSlot := some none }
      else el
  | .string path s =>
      if path = "response.item.type" then { el with typeSlot := some (some s) }
      else if path = "response.item.content" then { el with contentSlot := some (some s) }
      else el
  | _ => el

/-- The event loop of `parse_llm_output_stream`: after each event, if
`len(element) == 2 and None not in element.values()` the element is yielded
and the accumulator reset to `{}`. -/
def parseEventsAux : StreamElement → List JEvent → List (String × String)
  | _, [] => []
  | el, e :: rest =>
    let el' := applyEvent el e
    match el'.typeSlot, el'.contentSlot with
    | some (some t), some (some c) => (t, c) :: parseEventsAux StreamElement.empty rest
    | _, _ => parseEventsAux el' rest

/-- Whitespace skipping of the tokenizer. -/
def skipWs : List Char → List Char
  | [] => []
  | c :: cs => if c = ' ' ∨ c = '\n' ∨ c = '\t' ∨ c = '\r' then skipWs cs else c :: cs

/-- Translation of a JSON string escape character (`\uXXXX` escapes are not
modelled; none of the documents in play contain them). -/
def escChar (e : Char) : Option Char :=
  if e = '\"' then some '\"'
  else if e = '\\' then some '\\'
  else if e = '/' then some '/'
  else if e = 'n' then some '\n'
  else if e = 't' then some '\t'
  else if e = 'r' then some '\r'
  else if e = 'b' then some '\x08'
  else if e = 'f' then some '\x0c'
  else none

/-- Lexing of a JSON string body (the opening quote already consumed);
`none` on an unterminated string or unsupported escape. -/
def lexString : List Char → Option (String × List Char)
  | [] => none
  | c :: cs =>
    if c = '\"' then some ("", cs)
    else if c = '\\' then
      match cs with
      | [] => none
      | e :: cs' =>
        match escChar e with
        | some ch => (lexString cs').map (fun p => (ch.toString ++ p.1, p.2))
        | none => none
    else (lexString cs).map (fun p => (c.toString ++ p.1, p.2))

/-- Lexing of a maximal run of decimal digits. -/
def lexDigits : List Char → List Char × List Char
  | [] => ([], [])
  | c :: cs =>
    if c.isDigit then
      let p := lexDigits cs
      (c :: p.1, p.2)
    else ([], c :: cs)

/-- Numeric value of a digit run. -/
def digitsToInt (ds : List Char) : Int :=
  ds.foldl (fun acc c => acc * 10 + (c.toNat - '0'.toNat : Int)) 0

/-- Result of a tokenizing step: either success with the events reported and
the remaining input, or a tokenizing error together with the events already
reported before it was hit. -/
inductive TokResult where
  | ok (evs : List JEvent) (rest : List Char)
  | err (evs : List JEvent) (msg : String)
deriving DecidableEq, Repr

mutual

/-- Modelled from the spec: the incremental tokenizer (`ijson.parse`) on raw
text, reporting events for the JSON value at path `p` starting in `cs`.
Integer literals only are modelled for numbers; the fuel argument bounds the
recursion depth and is chosen large enough at the top entry point. -/
def tokValue : Nat → String → List Char → TokResult
  | 0, _, _ => .err [] "fuel"
  | fuel + 1, p, cs =>
    match skipWs cs with
    | [] => .err [] "incomplete"
    | c :: cs' =>
      if c = '\"' then
        match lexString cs' with
        | some (s, rest) => .ok [.string p s] rest
        | none => .err [] "incomplete string"
      else if c = '\x7b' then
        match tokMembers fuel p true cs' with
        | .ok evs rest => .ok (.start_map p :: evs) rest
        | .err evs m => .err (.start_map p :: evs) m
      else if c = '[' then
        match tokElems fuel p true cs' with
        | .ok evs rest => .ok (.start_array p :: evs) rest
        | .err evs m => .err (.start_array p :: evs) m
      else if c = 't' then
        match cs' with
        | 'r' :: 'u' :: 'e' :: rest => .ok [.boolean p true] rest
        | _ => .err [] "invalid token"
      else if c = 'f' then
        match cs' with
        | 'a' :: 'l' :: 's' :: 'e' :: rest => .ok [.boolean p false] rest
        | _ => .err [] "invalid token"
      else if c = 'n' then
        match cs' with
        | 'u' :: 'l' :: 'l' :: rest => .ok [.jnull p] rest
        | _ => .err [] "invalid token"
      else if c = '-' then
        match lexDigits cs' with
        | ([], _) => .err [] "invalid token"
        | (ds, rest) => .ok [.number p (-(digitsToInt ds))] rest
      else if c.isDigit then
        match lexDigits (c :: cs') with
        | ([], _) => .err [] "invalid token"
        | (ds, rest) => .ok [.number p (digitsToInt ds)] rest
      else .err [] "invalid token"

/-- Tokenizing of the members of an object at path `p` (opening brace already
consumed); the `first` flag tells whether a closing brace may come directly. -/
def tokMembers : Nat → String → Bool → List Char → TokResult
  | 0, _, _, _ => .err [] "fuel"
  | fuel + 1, p, first, cs =>
    match skipWs cs with
    | [] => .err [] "incomplete"
    | c :: cs' =>
      if c = '\x7d' ∧ first then .ok [.end_map p] cs'
      else if c = '\"' then
        match lexString cs' with
        | none => .err [] "incomplete string"
        | some (k, r1) =>
          match skipWs r1 with
          | ':' :: r2 =>
            match tokValue fuel (childPath p k) r2 with
            | .err evs m => .err (.map_key p k :: evs) m
            | .ok evs r3 =>
              match skipWs r3 with
              | '\x7d' :: r4 => .ok (.map_key p k :: (evs ++ [.end_map p])) r4
              | ',' :: r4 =>
                match tokMembers fuel p false r4 with
                | .ok evs2 r5 => .ok (.map_key p k :: (evs ++ evs2)) r5
                | .err evs2 m => .err (.map_key p k :: (evs ++ evs2)) m
              | [] => .err (.map_key p k :: evs) "incomplete"
              | _ => .err (.map_key p k :: evs) "parse error"
          | [] => .err [.map_key p k] "incomplete"
          | _ => .err [.map_key p k] "parse error"
      else .err [] "parse error"

/-- Tokenizing of the elements of an array at path `p` (opening bracket
already consumed); elements live at path `childPath p "item"`. -/
def tokElems : Nat → String → Bool → List Char → TokResult
  | 0, _, _, _ => .err [] "fuel"
  | fuel + 1, p, first, cs =>
    match skipWs cs with
    | [] => .err [] "incomplete"
    | c :: cs' =>
      if c = ']' ∧ first then .ok [.end_array p] cs'
      else
        match tokValue fuel (childPath p "item") (c :: cs') with
        | .err evs m => .err evs m
        | .ok evs r =>
          match skipWs r with
          | ']' :: r2 => .ok (evs ++ [.end_array p]) r2
          | ',' :: r2 =>
            match tokElems fuel p false r2 with
            | .ok evs2 r3 => .ok (evs ++ evs2) r3
            | .err evs2 m => .err (evs ++ evs2) m
          | [] => .err evs "incomplete"
          | _ => .err evs "parse error"

end

/-- Modelled from the spec: `ijson.parse` over a full text.  Returned are the
events delivered before the end of input, together with `none` on success or
`some msg` when a tokenizing error (`ijson.JSONError`) is raised after those
events. -/
def ijsonTokenize (s : String) : List JEvent × Option String :=
  let cs := s.data
  match tokValue (cs.length + 16) "" cs with
  | .ok evs rest =>
    match skipWs rest with
    | [] => (evs, none)
    | _ => (evs, some "trailing garbage")
  | .err evs msg => (evs, some msg)

/-- Embedding of `PostTranslator.parse_llm_output_stream`.  The Python
generator first drains the whole fragment iterator
(`io.StringIO("".join(itertools.chain(llm_output)))`), then folds the `ijson`
events; an `ijson.JSONError` is caught and logged as a warning, so the fields
completed before the error are exactly what the generator yields. -/
def parse_llm_output_stream (llm_output : List String) : List (String × String) :=
  parseEventsAux StreamElement.empty (ijsonTokenize (String.join llm_output)).1

/-- Value-level form of `parse_llm_output_stream`: the fields recovered from a
well-formed document given as a structured value (`json.dumps doc` is the text
the serializer would hand over, and `ijson.parse` reports `jsonEvents "" doc`
for it). -/
def parse_llm_output_stream_doc (doc : JsonValue) : List (String × String) :=
  parseEventsAux StreamElement.empty (jsonEvents "" doc)

/-- One observable action of the `parse_llm_output_stream` generator: pulling
a fragment from the `llm_output` iterator, or yielding a completed field. -/
inductive StreamAction where
  | pull (fragment : String)
  | emit (field : String × String)
deriving DecidableEq, Repr

/-- Interaction order of the `parse_llm_output_stream` generator: its first
statement `"".join(itertools.chain(llm_output))` drains the entire fragment
iterator before any event is parsed, so every pull precedes every yield. -/
def parse_llm_output_stream_trace (llm_output : List String) : List StreamAction :=
  llm_output.map StreamAction.pull ++ (parse_llm_output_stream llm_output).map StreamAction.emit

/-- The `Attachment` record of `taskweaver.memory` (only the fields the
translator touches). -/
structure Attachment where
  type : String
  content : String
deriving DecidableEq, Repr

/-- `Attachment.create`. -/
def Attachment.create (type content : String) : Attachment := ⟨type, content⟩

/-- The `Post` record of `taskweaver.memory` (only the fields the translator
touches). -/
structure Post where
  message : Option String
  send_from : String
  send_to : Option String
  attachment_list : List Attachment
deriving DecidableEq, Repr

/-- `Post.create`; a fresh post has no attachments. -/
def Post.create (message : Option String) (send_from : String) (send_to : Option String) : Post :=
  ⟨message, send_from, send_to, []⟩

/-- `Post.add_attachment` appends to `attachment_list`. -/
def Post.add_attachment (p : Post) (a : Attachment) : Post :=
  { p with attachment_list := p.attachment_list ++ [a] }

/-- The routing of one field into the post under construction (the
`if`/`elif`/`else` in the loop body of `raw_text_to_post`). -/
def routeField (post : Post) (type value : String) : Post :=
  if type = "message" then { post with message := some value }
  else if type = "send_to" then { post with send_to := some value }
  else post.add_attachment (Attachment.create type value)

/-- One call to the `event_handler` callback: its two positional arguments.
The second argument is a string for field events and `post.message` (possibly
`None`) for the final routing event, hence `Option String`. -/
abbrev HandlerCall := String × Option String

/-- The field loop of `raw_text_to_post`: each field is routed into the post,
then reported to `event_handler`, then the `early_stop` predicate (when
given) may break the loop.  Returned are the post after the loop and the list
of `event_handler` calls made by the loop. -/
def postLoop (early_stop : Option (String → String → Bool)) :
    Post → List (String × String) → Post × List HandlerCall
  | post, [] => (post, [])
  | post, (ty, value) :: rest =>
    let post' := routeField post ty value
    let call : HandlerCall := (ty, some value)
    let stop : Bool :=
      match early_stop with
      | some f => f ty value
      | none => false
    if stop then (post', [call])
    else
      let next := postLoop early_stop post' rest
      (next.1, call :: next.2)

/-- Outcome of `raw_text_to_post`: the full list of `event_handler` calls made
(these side effects happen regardless of validation), and either the returned
post or the exception propagated out of `validation_func`. -/
structure RawTextResult where
  handler_calls : List HandlerCall
  result : Except String Post
deriving Repr

/-- The part of `raw_text_to_post` after the field stream is fixed: run the
field loop from `Post.create(message=None, send_from=send_from, send_to=None)`,
then, if `post.send_to` is non-`None`, call the handler once more with
`f"{post.send_from}->{post.send_to}"` and `post.message`, then run
`validation_func` if given. -/
def raw_text_to_post_fields (fields : List (String × String)) (send_from : String)
    (early_stop : Option (String → String → Bool))
    (validation_func : Option (Post → Except String Unit)) : RawTextResult :=
  let r := postLoop early_stop (Post.create none send_from none) fields
  let post := r.1
  let calls :=
    match post.send_to with
    | some dest => r.2 ++ [(post.send_from ++ "->" ++ dest, post.message)]
    | none => r.2
  match validation_func with
  | some vf =>
    match vf post with
    | .ok _ => ⟨calls, .ok post⟩
    | .error e => ⟨calls, .error e⟩
  | none => ⟨calls, .ok post⟩

/-- Embedding of `PostTranslator.raw_text_to_post`: the field stream is
`parse_llm_output_stream([llm_output])`. -/
def raw_text_to_post (llm_output : String) (send_from : String)
    (early_stop : Option (String → String → Bool) := none)
    (validation_func : Option (Post → Except String Unit) := none) : RawTextResult :=
  raw_text_to_post_fields (parse_llm_output_stream [llm_output]) send_from early_stop validation_func

/-- Value-level form of `raw_text_to_post`, for a well-formed document given
as a structured value (see `parse_llm_output_stream_doc`). -/
def raw_text_to_post_structured (doc : JsonValue) (send_from : String)
    (early_stop : Option (String → String → Bool) := none)
    (validation_func : Option (Post → Except String Unit) := none) : RawTextResult :=
  raw_text_to_post_fields (parse_llm_output_stream_doc doc) send_from early_stop validation_func

/-- The `ignore_types` test of the serializer loop:
`ignore_types is not None and attachment.type in ignore_types`. -/
def attachmentIgnored (ignore_types : Option (List String)) (a : Attachment) : Bool :=
  match ignore_types with
  | some ts => ts.contains a.type
  | none => false

/-- The attachment loop of `post_to_raw_text`: ignored attachments are
skipped (`continue`), the others contribute
`{"type": attachment.type, "content": content_formatter(attachment)}`. -/
def attachmentEntries (content_formatter : Attachment → String)
    (ignore_types : Option (List String)) : List Attachment → List JsonValue
  | [] => []
  | a :: rest =>
    if attachmentIgnored ignore_types a then attachmentEntries content_formatter ignore_types rest
    else
      JsonValue.obj [("type", .str a.type), ("content", .str (content_formatter a))]
        :: attachmentEntries content_formatter ignore_types rest

/-- A Python optional string as a JSON value (`None` serializes as `null`). -/
def optionToJson : Option String → JsonValue
  | some s => .str s
  | none => .null

/-- Embedding of `PostTranslator.post_to_raw_text` up to (and not including)
the final `json.dumps`: the structured value
`{"response": structured_llm}` that the method serializes. -/
def post_to_raw_text_structured (post : Post)
    (content_formatter : Attachment → String := fun x => x.content)
    (if_format_message : Bool := true) (if_format_send_to : Bool := true)
    (ignore_types : Option (List String) := none) : JsonValue :=
  let structured := attachmentEntries content_formatter ignore_types post.attachment_list
  let structured := structured ++
    (if if_format_send_to then
      [JsonValue.obj [("type", .str "send_to"), ("content", optionToJson post.send_to)]]
    else [])
  let structured := structured ++
    (if if_format_message then
      [JsonValue.obj [("type", .str "message"), ("content", optionToJson post.message)]]
    else [])
  JsonValue.obj [("response", .arr structured)]

/-- A Python exception escaping `parse_llm_output`. -/
inductive PyError where
  | json_decode_error
  | key_error (k : String)
  | type_error
  | assertion_error (msg : String)
deriving DecidableEq, Repr

/-- Lookup in a Python dict built by `json.loads`: with duplicate keys the
last binding wins. -/
def pyDictGetLast : List (String × JsonValue) → String → Option JsonValue
  | [], _ => none
  | (k, v) :: rest, key =>
    match pyDictGetLast rest key with
    | some r => some r
    | none => if k = key then some v else none

/-- Python subscripting `v["response"]` on a decoded JSON value: `KeyError`
on a dict without the key, `TypeError` on a non-dict. -/
def pySubscript (v : JsonValue) (key : String) : Except PyError JsonValue :=
  match v with
  | .obj kvs =>
    match pyDictGetLast kvs key with
    | some r => .ok r
    | none => .error (.key_error key)
  | _ => .error .type_error

/-- Embedding of `PostTranslator.parse_llm_output`.  The argument is the
outcome of `json.loads(llm_output)` (`none` when it raises `JSONDecodeError`);
the `assert isinstance(..., list)` raises `AssertionError` on a non-array
`response`, and every error is re-raised to the caller after logging. -/
def parse_llm_output (doc : Option JsonValue) : Except PyError (List JsonValue) :=
  match doc with
  | none => .error .json_decode_error
  | some v =>
    match pySubscript v "response" with
    | .error e => .error e
    | .ok (.arr xs) => .ok xs
    | .ok _ => .error (.assertion_error "LLM output should be a list object")

/-- A field object `{"type": t, "content": c}` of the wire format. -/
def mkFieldObj (t c : String) : JsonValue :=
  .obj [("type", .str t), ("content", .str c)]

/-- A syntactically valid document `{"response": [{"type": t, "content": c}, ...]}`
with both slots of every field a string. -/
def mkResponseDoc (fields : List (String × String)) : JsonValue :=
  .obj [("response", .arr (fields.map fun f => mkFieldObj f.1 f.2))]

/-- Specification-side description of the fields the loop of
`raw_text_to_post` processes: the stream up to and including the first field
on which `early_stop` fires. -/
def stopTake (early_stop : Option (String → String → Bool)) :
    List (String × String) → List (String × String)
  | [] => []
  | f :: rest =>
    match early_stop with
    | some p => if p f.1 f.2 then [f] else f :: stopTake early_stop rest
    | none => f :: stopTake none rest

/-- Specification-side description of the field, if any, that the stream
parser recovers from a serialized `send_to`/`message` entry: an entry with
`null` content produces no field. -/
def optField (t : String) : Option String → List (String × String)
  | some s => [(t, s)]
  | none => []

/-! ### Helper lemmas -/

theorem stopTake_none (fields : List (String × String)) : stopTake none fields = fields := by
  induction fields with
  | nil => rfl
  | cons f rest ih => simp [stopTake, ih]

/-- The field loop routes and reports exactly the fields up to and including
the first one on which `early_stop` fires. -/
theorem postLoop_spec (early_stop : Option (String → String → Bool))
    (fields : List (String × String)) : ∀ post0 : Post,
    postLoop early_stop post0 fields =
      ((stopTake early_stop fields).foldl (fun p f => routeField p f.1 f.2) post0,
       (stopTake early_stop fields).map fun f => (f.1, some f.2)) := by
  induction fields with
  | nil => intro post0; rfl
  | cons f rest ih =>
    intro post0
    obtain ⟨ty, value⟩ := f
    cases early_stop with
    | none => simp [postLoop, stopTake, ih]
    | some pred =>
      by_cases h : pred ty value
      · simp [postLoop, stopTake, h]
      · simp [postLoop, stopTake, h, ih]

theorem routeField_send_from (p : Post) (t v : String) :
    (routeField p t v).send_from = p.send_from := by
  simp only [routeField, Post.add_attachment]
  split <;> try rfl
  split <;> rfl

theorem foldl_routeField_send_from (fs : List (String × String)) : ∀ post0 : Post,
    (fs.foldl (fun p f => routeField p f.1 f.2) post0).send_from = post0.send_from := by
  induction fs with
  | nil => intro post0; rfl
  | cons f rest ih => intro post0; rw [List.foldl_cons, ih, routeField_send_from]

theorem postLoop_send_from (early_stop : Option (String → String → Bool))
    (post0 : Post) (fields : List (String × String)) :
    (postLoop early_stop post0 fields).1.send_from = post0.send_from := by
  rw [postLoop_spec]
  exact foldl_routeField_send_from _ _

/-- Unfolding of one step of the event loop. -/
theorem parseEventsAux_cons (el : StreamElement) (e : JEvent) (rest : List JEvent) :
    parseEventsAux el (e :: rest) =
      match (applyEvent el e).typeSlot, (applyEvent el e).contentSlot with
      | some (some t), some (some c) => (t, c) :: parseEventsAux StreamElement.empty rest
      | _, _ => parseEventsAux (applyEvent el e) rest := rfl

theorem jsonEventsArr_append (p : String) (l1 l2 : List JsonValue) :
    jsonEventsArr p (l1 ++ l2) = jsonEventsArr p l1 ++ jsonEventsArr p l2 := by
  induction l1 with
  | nil => simp [jsonEventsArr]
  | cons v vs ih => simp [jsonEventsArr, ih]

/-- Event stream of a field object with string content. -/
theorem ev_field (t c : String) :
    jsonEvents "response.item" (mkFieldObj t c) =
      [.start_map "response.item", .map_key "response.item" "type",
       .string "response.item.type" t, .map_key "response.item" "content",
       .string "response.item.content" c, .end_map "response.item"] := by
  simp [mkFieldObj, jsonEvents, jsonEventsObj, childPath]

/-- Event stream of a field object with `null` content. -/
theorem ev_nullfield (t : String) :
    jsonEvents "response.item" (.obj [("type", .str t), ("content", JsonValue.null)]) =
      [.start_map "response.item", .map_key "response.item" "type",
       .string "response.item.type" t, .map_key "response.item" "content",
       .jnull "response.item.content", .end_map "response.item"] := by
  simp [jsonEvents, jsonEventsObj, childPath]

/-- Processing the events of a string-content field object from the empty
accumulator yields that field and resets the accumulator. -/
theorem parse_field_events (t c : String) (rest : List JEvent) :
    parseEventsAux StreamElement.empty
      (.start_map "response.item" :: .map_key "response.item" "type" ::
       .string "response.item.type" t :: .map_key "response.item" "content" ::
       .string "response.item.content" c :: .end_map "response.item" :: rest) =
      (t, c) :: parseEventsAux StreamElement.empty rest := rfl

/-- Processing the events of a string-content field object from an accumulator
left dirty by a `null`-content object also yields that field: the stale type
slot is overwritten by the object's own `map_key`/`string` events. -/
theorem parse_field_events_dirty (t0 t c : String) (rest : List JEvent) :
    parseEventsAux ⟨some (some t0), some none⟩
      (.start_map "response.item" :: .map_key "response.item" "type" ::
       .string "response.item.type" t :: .map_key "response.item" "content" ::
       .string "response.item.content" c :: .end_map "response.item" :: rest) =
      (t, c) :: parseEventsAux StreamElement.empty rest := rfl

/-- Processing the events of a `null`-content field object from the empty
accumulator yields nothing and leaves the accumulator dirty: the type slot is
filled, the content slot pending. -/
theorem parse_nullfield_events (t : String) (rest : List JEvent) :
    parseEventsAux StreamElement.empty
      (.start_map "response.item" :: .map_key "response.item" "type" ::
       .string "response.item.type" t :: .map_key "response.item" "content" ::
       .jnull "response.item.content" :: .end_map "response.item" :: rest) =
      parseEventsAux ⟨some (some t), some none⟩ rest := rfl

/-- Processing the events of a `null`-content field object from a dirty
accumulator yields nothing and leaves the accumulator dirty with the new type. -/
theorem parse_nullfield_events_dirty (t0 t : String) (rest : List JEvent) :
    parseEventsAux ⟨some (some t0), some none⟩
      (.start_map "response.item" :: .map_key "response.item" "type" ::
       .string "response.item.type" t :: .map_key "response.item" "content" ::
       .jnull "response.item.content" :: .end_map "response.item" :: rest) =
      parseEventsAux ⟨some (some t), some none⟩ rest := rfl

/-- The wrapper events of the document and of the closing of the array match
no branch of the loop: they leave the empty accumulator unchanged. -/
theorem parse_wrapper_events (rest : List JEvent) :
    parseEventsAux StreamElement.empty
      (.start_map "" :: .map_key "" "response" :: .start_array "response" :: rest) =
      parseEventsAux StreamElement.empty rest := rfl

theorem parse_end_events_empty :
    parseEventsAux StreamElement.empty [.end_array "response", .end_map ""] = [] := rfl

theorem parse_end_events_dirty (t0 : String) :
    parseEventsAux ⟨some (some t0), some none⟩ [.end_array "response", .end_map ""] = [] := rfl

/-- Processing the events of a list of string-content field objects from the
empty accumulator yields exactly those fields, in order. -/
theorem parse_entries (fs : List (String × String)) (rest : List JEvent) :
    parseEventsAux StreamElement.empty
      (jsonEventsArr "response.item" (fs.map fun f => mkFieldObj f.1 f.2) ++ rest) =
      fs ++ parseEventsAux StreamElement.empty rest := by
  induction fs with
  | nil => simp [jsonEventsArr]
  | cons f fs ih =>
    obtain ⟨t, c⟩ := f
    simp only [List.map_cons, jsonEventsArr, ev_field, List.cons_append, List.append_assoc,
      List.nil_append]
    rw [parse_field_events, ih]

/-- With `ignore_types = None` no attachment is skipped. -/
theorem attachmentEntries_none (fmt : Attachment → String) (atts : List Attachment) :
    attachmentEntries fmt none atts = atts.map fun a => mkFieldObj a.type (fmt a) := by
  induction atts with
  | nil => rfl
  | cons a rest ih => simp [attachmentEntries, attachmentIgnored, ih, mkFieldObj]

/-- The serializer's attachment loop is the filter of the non-ignored
attachments followed by the per-attachment entry map. -/
theorem attachmentEntries_some (fmt : Attachment → String) (ts : List String)
    (atts : List Attachment) :
    attachmentEntries fmt (some ts) atts =
      (atts.filter fun a => !(ts.contains a.type)).map fun a => mkFieldObj a.type (fmt a) := by
  induction atts with
  | nil => rfl
  | cons a rest ih =>
    by_cases h : a.type ∈ ts <;>
      simp_all [attachmentEntries, attachmentIgnored, List.filter_cons, mkFieldObj]

theorem routeField_message (p : Post) (v : String) :
    routeField p "message" v = { p with message := some v } := rfl

theorem routeField_send_to (p : Post) (v : String) :
    routeField p "send_to" v = { p with send_to := some v } := rfl

/-- Folding the routing step over attachment-derived fields whose types are
not the reserved tags appends exactly those attachments. -/
theorem foldl_routeField_attachments (atts : List Attachment) : ∀ post0 : Post,
    (∀ a ∈ atts, a.type ≠ "message" ∧ a.type ≠ "send_to") →
    (atts.map fun a => (a.type, a.content)).foldl (fun p f => routeField p f.1 f.2) post0 =
      { post0 with attachment_list := post0.attachment_list ++ atts } := by
  induction atts with
  | nil => intro post0 _; simp
  | cons a rest ih =>
    intro post0 h
    have ha := h a (List.mem_cons_self a rest)
    simp only [List.map_cons, List.foldl_cons]
    rw [show routeField post0 a.type a.content = post0.add_attachment a by
      simp [routeField, ha.1, ha.2, Attachment.create]]
    rw [ih _ (fun b hb => h b (List.mem_cons_of_mem _ hb))]
    simp [Post.add_attachment]

/-- Stream parsing of a full `{"response": [...]}` document reduces to the
events of the array items followed by the closing events. -/
theorem parse_response_doc (entries : List JsonValue) :
    parse_llm_output_stream_doc (.obj [("response", .arr entries)]) =
      parseEventsAux StreamElement.empty
        (jsonEventsArr "response.item" entries ++ [.end_array "response", .end_map ""]) := by
  simp only [parse_llm_output_stream_doc, jsonEvents, jsonEventsObj,
    List.append_nil, List.cons_append, List.append_assoc, List.singleton_append]
  rw [show childPath "" "response" = "response" from rfl,
      show childPath "response" "item" = "response.item" from rfl]
  exact parse_wrapper_events _

/-- Stream parsing of the serializer's trailing `send_to`/`message` entries:
an entry with string content completes a field, an entry with `null` content
completes none, and the accumulator state a `null` entry leaves behind never
produces a spurious field before the end of the document. -/
theorem parse_tail (o1 o2 : Option String) :
    parseEventsAux StreamElement.empty
      (jsonEventsArr "response.item"
        [JsonValue.obj [("type", .str "send_to"), ("content", optionToJson o1)],
         JsonValue.obj [("type", .str "message"), ("content", optionToJson o2)]]
        ++ [.end_array "response", .end_map ""]) =
      optField "send_to" o1 ++ optField "message" o2 := by
  cases o1 <;> cases o2 <;> rfl

/-- The fields the stream parser recovers from a serialized post (default
serializer arguments): one field per attachment, in order, then at most one
`send_to` and one `message` field — none when the respective slot is `None`,
since its `null`-content entry completes no field. -/
theorem parse_post_fields (P : Post) :
    parse_llm_output_stream_doc (post_to_raw_text_structured P) =
      (P.attachment_list.map fun a => (a.type, a.content))
        ++ optField "send_to" P.send_to ++ optField "message" P.message := by
  rw [show post_to_raw_text_structured P =
      JsonValue.obj [("response", JsonValue.arr
        (attachmentEntries (fun x => x.content) none P.attachment_list ++
          [JsonValue.obj [("type", .str "send_to"), ("content", optionToJson P.send_to)],
           JsonValue.obj [("type", .str "message"), ("content", optionToJson P.message)]]))] from by
        simp [post_to_raw_text_structured, List.append_assoc]]
  rw [parse_response_doc, attachmentEntries_none, jsonEventsArr_append]
  rw [show (P.attachment_list.map fun a => mkFieldObj a.type a.content) =
      ((P.attachment_list.map fun a => (a.type, a.content)).map fun f => mkFieldObj f.1 f.2) from by
        simp [List.map_map]]
  rw [List.append_assoc, parse_entries, parse_tail, List.append_assoc]

/-- Extending the event stream only appends further fields: the fields
recovered from a prefix of the events are emitted unchanged, whatever comes
later. -/
theorem parseEventsAux_append_mono (evs1 : List JEvent) : ∀ (el : StreamElement)
    (evs2 : List JEvent),
    ∃ tail, parseEventsAux el (evs1 ++ evs2) = parseEventsAux el evs1 ++ tail := by
  induction evs1 with
  | nil =>
    intro el evs2
    exact ⟨parseEventsAux el evs2, by simp [parseEventsAux]⟩
  | cons e rest ih =>
    intro el evs2
    rw [List.cons_append]
    rcases h : applyEvent el e with ⟨tslot, cslot⟩
    rcases tslot with _ | tv
    · obtain ⟨tail, htail⟩ := ih ⟨none, cslot⟩ evs2
      exact ⟨tail, by rw [parseEventsAux_cons, parseEventsAux_cons, h, htail]⟩
    · rcases tv with _ | t
      · obtain ⟨tail, htail⟩ := ih ⟨some none, cslot⟩ evs2
        exact ⟨tail, by rw [parseEventsAux_cons, parseEventsAux_cons, h, htail]⟩
      · rcases cslot with _ | cv
        · obtain ⟨tail, htail⟩ := ih ⟨some (some t), none⟩ evs2
          exact ⟨tail, by rw [parseEventsAux_cons, parseEventsAux_cons, h, htail]⟩
        · rcases cv with _ | c
          · obtain ⟨tail, htail⟩ := ih ⟨some (some t), some none⟩ evs2
            exact ⟨tail, by rw [parseEventsAux_cons, parseEventsAux_cons, h, htail]⟩
          · obtain ⟨tail, htail⟩ := ih StreamElement.empty evs2
            exact ⟨tail, by rw [parseEventsAux_cons, parseEventsAux_cons, h, htail]; rfl⟩

/-- With no validation hook, `raw_text_to_post` returns the post built by the
field loop. -/
theorem raw_text_to_post_fields_result (fields : List (String × String)) (sf : String)
    (es : Option (String → String → Bool)) :
    (raw_text_to_post_fields fields sf es none).result =
      Except.ok (postLoop es (Post.create none sf none) fields).1 := rfl

/-! ### Claim theorems -/

/-- C1, counterexample: the round trip is not the identity for every Post.
For a Post with an attachment of type `"message"`, the serializer emits that
attachment as a `message`-typed entry, and re-parsing routes it into
`post.message` instead of the attachment list: the resulting Post has empty
attachments and message `"x"`, while the original had one attachment and
message `None`. -/
theorem round_trip_counterexample :
    (raw_text_to_post_structured
        (post_to_raw_text_structured ⟨none, "Agent", none, [⟨"message", "x"⟩]⟩) "Agent").result =
      Except.ok (⟨some "x", "Agent", none, []⟩ : Post)
    ∧ (⟨some "x", "Agent", none, []⟩ : Post).attachment_list ≠
        (⟨none, "Agent", none, [⟨"message", "x"⟩]⟩ : Post).attachment_list
    ∧ (⟨some "x", "Agent", none, []⟩ : Post).message ≠
        (⟨none, "Agent", none, [⟨"message", "x"⟩]⟩ : Post).message :=
  ⟨rfl, by decide, by decide⟩

/-- C1 (amended): for every Post none of whose attachments carries one of the
reserved type tags `"message"`/`"send_to"`, and `ignore_types` empty with
default flags, running `raw_text_to_post` on the serializer's output yields a
Post whose `attachment_list`, `message` and `send_to` equal the original's
respective fields. -/
theorem round_trip (P : Post) (sf : String)
    (h : ∀ a ∈ P.attachment_list, a.type ≠ "message" ∧ a.type ≠ "send_to") :
    (raw_text_to_post_structured (post_to_raw_text_structured P) sf).result =
      Except.ok (⟨P.message, sf, P.send_to, P.attachment_list⟩ : Post) := by
  rw [raw_text_to_post_structured, raw_text_to_post_fields_result, parse_post_fields,
    postLoop_spec, stopTake_none]
  simp only [List.foldl_append]
  rw [foldl_routeField_attachments P.attachment_list (Post.create none sf none) h]
  cases hs : P.send_to <;> cases hm : P.message <;>
    simp [optField, Post.create, routeField_send_to, routeField_message]

/-- C1, witness for the amended round trip at a concrete Post. -/
theorem round_trip_witness :
    (raw_text_to_post_structured
        (post_to_raw_text_structured ⟨some "hi", "U", some "Planner", [⟨"code", "x"⟩]⟩) "U").result =
      Except.ok (⟨some "hi", "U", some "Planner", [⟨"code", "x"⟩]⟩ : Post) :=
  round_trip ⟨some "hi", "U", some "Planner", [⟨"code", "x"⟩]⟩ "U" (by decide)

/-- C2: for every syntactically valid document
`{"response": [{"type": t, "content": c}, ...]}` with string-valued slots, the
streaming parser yields exactly the listed fields, in array order, with the
same type and content values; each is emitted once both slots hold strings,
resetting the accumulator. -/
theorem order_preservation (fields : List (String × String)) :
    parse_llm_output_stream_doc (mkResponseDoc fields) = fields := by
  rw [mkResponseDoc, parse_response_doc, parse_entries, parse_end_events_empty, List.append_nil]

/-- C3: on the document cut mid-second-object, the streaming parser yields
exactly the one completed field `("message", "hi")`; the tokenizer reports an
error after the delivered events (the warning-logging branch of the `except`
clause), and the parse returns normally rather than raising. -/
theorem graceful_truncation :
    parse_llm_output_stream
      ["\x7b\"response\": [\x7b\"type\":\"message\",\"content\":\"hi\"\x7d, \x7b\"type\":\"sen"] =
      [("message", "hi")]
    ∧ (ijsonTokenize
        "\x7b\"response\": [\x7b\"type\":\"message\",\"content\":\"hi\"\x7d, \x7b\"type\":\"sen").2.isSome =
      true :=
  ⟨rfl, rfl⟩

/-- C4: after the field loop of `raw_text_to_post` finishes (run to completion
or stopped early), the event handler is called exactly one additional time,
with key `"{send_from}->{send_to}"` and value `post.message`, if and only if
the constructed Post's `send_to` is non-null. -/
theorem routing_event (llm_output send_from : String)
    (early_stop : Option (String → String → Bool)) :
    (raw_text_to_post llm_output send_from early_stop none).handler_calls =
      (postLoop early_stop (Post.create none send_from none)
          (parse_llm_output_stream [llm_output])).2
        ++ (match (postLoop early_stop (Post.create none send_from none)
              (parse_llm_output_stream [llm_output])).1.send_to with
            | some dest =>
                [(send_from ++ "->" ++ dest,
                  (postLoop early_stop (Post.create none send_from none)
                    (parse_llm_output_stream [llm_output])).1.message)]
            | none => []) := by
  have hf := postLoop_send_from early_stop (Post.create none send_from none)
    (parse_llm_output_stream [llm_output])
  simp only [raw_text_to_post, raw_text_to_post_fields]
  cases hs : (postLoop early_stop (Post.create none send_from none)
      (parse_llm_output_stream [llm_output])).1.send_to with
  | none => simp [hs]
  | some dest =>
    simp only [Post.create] at hf
    simp [hs, hf, Post.create]

/-- C5: the field loop routes into the Post, and reports to the event handler
exactly once, every field up to and including the first one on which
`early_stop` fires, and pulls nothing beyond it; in the concrete two-field
document with `early_stop` constantly true, only the first field is routed and
the second is never observed. -/
theorem per_field_callback_and_early_stop :
    (∀ (early_stop : Option (String → String → Bool)) (post0 : Post)
        (fields : List (String × String)),
        postLoop early_stop post0 fields =
          ((stopTake early_stop fields).foldl (fun p f => routeField p f.1 f.2) post0,
           (stopTake early_stop fields).map fun f => (f.1, some f.2)))
    ∧ (raw_text_to_post
        "\x7b\"response\": [\x7b\"type\":\"a\",\"content\":\"1\"\x7d, \x7b\"type\":\"b\",\"content\":\"2\"\x7d]\x7d"
        "Agent" (some fun _ _ => true) none).handler_calls = [("a", some "1")]
    ∧ (raw_text_to_post
        "\x7b\"response\": [\x7b\"type\":\"a\",\"content\":\"1\"\x7d, \x7b\"type\":\"b\",\"content\":\"2\"\x7d]\x7d"
        "Agent" (some fun _ _ => true) none).result =
        Except.ok (⟨none, "Agent", none, [⟨"a", "1"⟩]⟩ : Post) :=
  ⟨fun early_stop post0 fields => postLoop_spec early_stop fields post0, rfl, rfl⟩

/-- C6: the serializer's emitted array holds, in order, the non-ignored
attachments (in their existing order), then a `send_to` entry when
`if_format_send_to` is set, then a `message` entry when `if_format_message`
is set; attachments whose type is in `ignore_types` are omitted entirely. -/
theorem serializer_field_order (P : Post) (fmt : Attachment → String)
    (im ist : Bool) (ts : List String) :
    post_to_raw_text_structured P fmt im ist (some ts) =
      JsonValue.obj [("response", JsonValue.arr (
        ((P.attachment_list.filter fun a => !(ts.contains a.type)).map
            fun a => JsonValue.obj [("type", .str a.type), ("content", .str (fmt a))])
        ++ ((if ist then
              [JsonValue.obj [("type", .str "send_to"), ("content", optionToJson P.send_to)]]
            else [])
        ++ (if im then
              [JsonValue.obj [("type", .str "message"), ("content", optionToJson P.message)]]
            else []))))] := by
  simp [post_to_raw_text_structured, attachmentEntries_some, mkFieldObj, List.append_assoc]

/-- C7: `parse_llm_output` returns normally exactly when `json.loads`
succeeded on a dict whose `response` key holds an array, and then returns that
array; on invalid JSON, a missing `response` key, or a non-array `response`
value an exception propagates to the caller instead. -/
theorem parse_llm_output_shape (doc : Option JsonValue) (xs : List JsonValue) :
    parse_llm_output doc = Except.ok xs ↔
      ∃ kvs, doc = some (JsonValue.obj kvs) ∧
        pyDictGetLast kvs "response" = some (JsonValue.arr xs) := by
  constructor
  · intro h
    cases doc with
    | none => simp [parse_llm_output] at h
    | some v =>
      cases v with
      | obj kvs =>
        refine ⟨kvs, rfl, ?_⟩
        simp only [parse_llm_output, pySubscript] at h
        cases hr : pyDictGetLast kvs "response" with
        | none => rw [hr] at h; simp at h
        | some r => rw [hr] at h; cases r <;> simp_all
      | null => simp [parse_llm_output, pySubscript] at h
      | bool b => simp [parse_llm_output, pySubscript] at h
      | num n => simp [parse_llm_output, pySubscript] at h
      | str s => simp [parse_llm_output, pySubscript] at h
      | arr items => simp [parse_llm_output, pySubscript] at h
  · rintro ⟨kvs, rfl, hr⟩
    simp [parse_llm_output, pySubscript, hr]

/-- C8, counterexample: the first fragment alone already determines the single
field of the document, yet the generator's trace pulls the second fragment
before yielding anything — the whole fragment sequence is materialized into a
buffer before any field can be yielded. -/
theorem incremental_emission_counterexample :
    parse_llm_output_stream ["\x7b\"response\": [\x7b\"type\":\"message\",\"content\":\"hi\"\x7d"] =
      [("message", "hi")]
    ∧ parse_llm_output_stream_trace
        ["\x7b\"response\": [\x7b\"type\":\"message\",\"content\":\"hi\"\x7d", "]\x7d"] =
        [.pull "\x7b\"response\": [\x7b\"type\":\"message\",\"content\":\"hi\"\x7d",
         .pull "]\x7d", .emit ("message", "hi")] :=
  ⟨rfl, rfl⟩

/-- C8 (amended): the parser is incremental with respect to the event stream —
the fields recovered from already-delivered events are final, and later events
only append further fields — but it consumes the fragment sequence eagerly:
`"".join` drains every fragment before tokenizing, so all pulls precede all
yields in the generator's trace. -/
theorem incremental_emission_amended :
    (∀ (evs1 : List JEvent) (el : StreamElement) (evs2 : List JEvent),
        ∃ tail, parseEventsAux el (evs1 ++ evs2) = parseEventsAux el evs1 ++ tail)
    ∧ (∀ llm_output : List String,
        parse_llm_output_stream_trace llm_output =
          llm_output.map StreamAction.pull
            ++ (parse_llm_output_stream llm_output).map StreamAction.emit) :=
  ⟨parseEventsAux_append_mono, fun _ => rfl⟩

/-- C9: on the valid document
`{"response": [{"type": "a", "content": null}, {"content": "c"}]}` the
accumulator is not reset at the first object's closing boundary: the parser
yields the single field `("a", "c")`, whose type slot comes from the first
array object and whose content slot comes from the second. -/
theorem accumulator_carries_across_objects :
    parse_llm_output_stream
      ["\x7b\"response\": [\x7b\"type\": \"a\", \"content\": null\x7d, \x7b\"content\": \"c\"\x7d]\x7d"] =
      [("a", "c")]
    ∧ (ijsonTokenize
        "\x7b\"response\": [\x7b\"type\": \"a\", \"content\": null\x7d, \x7b\"content\": \"c\"\x7d]\x7d").2 =
      none :=
  ⟨rfl, rfl⟩

/-- C10: with default flags, the serializer always appends `send_to` and
`message` entries, serialized with `null` content when the respective slot is
`None`; re-parsing such a wire document yields no field for those entries, so
for a Post with both slots `None` only the attachment fields come back. -/
theorem null_fields_emitted_then_dropped (P : Post)
    (h1 : P.send_to = none) (h2 : P.message = none) :
    post_to_raw_text_structured P =
      JsonValue.obj [("response", JsonValue.arr (
        (P.attachment_list.map fun a =>
          JsonValue.obj [("type", .str a.type), ("content", .str a.content)])
        ++ [JsonValue.obj [("type", .str "send_to"), ("content", JsonValue.null)],
            JsonValue.obj [("type", .str "message"), ("content", JsonValue.null)]]))]
    ∧ parse_llm_output_stream_doc (post_to_raw_text_structured P) =
        P.attachment_list.map fun a => (a.type, a.content) := by
  constructor
  · simp [post_to_raw_text_structured, attachmentEntries_none, h1, h2, optionToJson,
      mkFieldObj, List.append_assoc]
  · rw [parse_post_fields, h1, h2]
    simp [optField]

/-- C10, witness at a concrete Post with one attachment. -/
theorem null_fields_emitted_then_dropped_witness :
    (post_to_raw_text_structured (⟨none, "A", none, [⟨"code", "x"⟩]⟩ : Post) =
      JsonValue.obj [("response", JsonValue.arr (
        ((⟨none, "A", none, [⟨"code", "x"⟩]⟩ : Post).attachment_list.map fun a =>
          JsonValue.obj [("type", .str a.type), ("content", .str a.content)])
        ++ [JsonValue.obj [("type", .str "send_to"), ("content", JsonValue.null)],
            JsonValue.obj [("type", .str "message"), ("content", JsonValue.null)]]))])
    ∧ parse_llm_output_stream_doc
        (post_to_raw_text_structured (⟨none, "A", none, [⟨"code", "x"⟩]⟩ : Post)) =
        (⟨none, "A", none, [⟨"code", "x"⟩]⟩ : Post).attachment_list.map fun a =>
          (a.type, a.content) :=
  null_fields_emitted_then_dropped ⟨none, "A", none, [⟨"code", "x"⟩]⟩ rfl rfl

end Translator
